import Mathlib

/-!
Verification of the rizzyscope target-acquisition and channel-lock engine.

The definitions below are a shallow embedding of the Go source:
* `target.go` — `TargetType`, `TargetItem`, `ToggleIgnore`, `IsIgnored`;
* `kismet.go` — the constants `MinRSSI`/`MaxRSSI`, `DeviceInfo`,
  `FetchDeviceInfo` and `FindValidTarget` (the pure core of each HTTP
  handler, parameterised by the detector response);
* `main.go` — `findValidMac` (the older variant, with its unchecked
  type assertion modelled as an `Except` failure) and the constants
  `timeout`/`decayRate`;
* the tick / enter / ignore-key cases of `Model.Update` (the
  `part_004` variant, which is the current engine): `searchPhase`,
  `fetchPhase`, `decayPhase`, `tickStep`, `enterKey`, `iKey`.

Presentation-only model fields (progress bar, window size, temporary
messages, the kismet data pane, the client-scroll state) are omitted:
no claim mentions them and no retained handler branch reads them to
decide acquisition state.  Network calls are modelled by passing the
response data in as an argument; the returned `Nat` of a handler counts
the channel-lock (for ticks) or channel-hop (for key handlers) calls it
issues.
-/

namespace Rizzyscope

/-- Constants from kismet.go and main.go. -/
def MinRSSI : Int := -120

/-- Maximum RSSI value for the progress bar (kismet.go). -/
def MaxRSSI : Int := -20

/-- Rate at which RSSI decays if no new data (main.go / part_004). -/
def decayRate : Int := 10

/-- Timeout duration for holding the RSSI value, in milliseconds
(`timeout = 5 * time.Second`). -/
def staleTimeout : Nat := 5000

/-- target.go: `TargetType` with constants `MAC` and `SSID`. -/
inductive TargetType where
  | MAC
  | SSID
deriving DecidableEq

/-- target.go: `TargetItem`. -/
structure TargetItem where
  Value : String
  TType : TargetType
  OriginalValue : String
  Ignored : Bool
  Search : Bool
  ChannelLocked : Bool
deriving DecidableEq

/-- target.go: `IsIgnored`. -/
def TargetItem.IsIgnored (t : TargetItem) : Bool := t.Ignored

/-- target.go: `ToggleIgnore` (`t.Ignored = !t.Ignored`, returning the
updated item). -/
def TargetItem.ToggleIgnore (t : TargetItem) : TargetItem :=
  { t with Ignored := !t.Ignored }

/-- One decoded device record from a Kismet poll response.  Every field
is optional: a Go `map[string]interface` either holds a value of the
asserted type for the key or does not. -/
structure RawDevice where
  macaddr : Option String
  channel : Option String
  rssi : Option Int
  ssid : Option String
  manuf : Option String
  crypt : Option String
  devtype : Option String
  clients : Option (List (String × String))
deriving DecidableEq

/-- kismet.go: `DeviceInfo` (the Go field `Type` is rendered `DevType`
because `Type` is reserved in Lean). -/
structure DeviceInfo where
  RSSI : Int
  Channel : String
  Manufacturer : String
  SSID : String
  Crypt : String
  DevType : String
  AssociatedClients : List (String × String)
deriving DecidableEq

/-- Outcome of the HTTP exchange performed by `FetchDeviceInfo`. -/
inductive FetchResult where
  | netFail
  | httpError
  | decodeError
  | okDevices (devices : List RawDevice)
deriving DecidableEq

/-- kismet.go `FetchDeviceInfo`: the `DeviceInfo` built for a matching
device record — defaults first, then each present field overrides. -/
def buildDeviceInfo (d : RawDevice) : DeviceInfo :=
  { RSSI := d.rssi.getD MinRSSI
    Channel := d.channel.getD ""
    Manufacturer := d.manuf.getD "Unknown"
    SSID := d.ssid.getD "Unknown"
    Crypt := d.crypt.getD "Unknown"
    DevType := d.devtype.getD "Unknown"
    AssociatedClients := d.clients.getD [] }

/-- kismet.go `FetchDeviceInfo`, inner loop: first device whose
`base.macaddr` is a string equal to `mac`. -/
def findInfo (mac : String) : List RawDevice → Option DeviceInfo
  | [] => none
  | d :: ds =>
    match d.macaddr with
    | some m => if m == mac then some (buildDeviceInfo d) else findInfo mac ds
    | none => findInfo mac ds

/-- kismet.go `FetchDeviceInfo` as a function of the detector response.
Network failure returns `(nil, nil)`, a non-200 status or a missing
device yields `errDeviceNotFound`, a decode error returns the error —
in each case the caller receives no `DeviceInfo`. -/
def FetchDeviceInfo (mac : String) : FetchResult → Option DeviceInfo
  | .okDevices ds => findInfo mac ds
  | _ => none

/-- Device records carried by a `FetchResult` (empty unless the call
succeeded and decoded). -/
def fetchDevices : FetchResult → List RawDevice
  | .okDevices ds => ds
  | _ => []

/-- kismet.go `FindValidTarget`, match test for one target against one
device record: a MAC target compares the (string-asserted, default
empty) `base.macaddr` with its value; an SSID target requires the
`SSID` field to be a string equal to its value and `base.channel` to be
a string. -/
def targetMatches (t : TargetItem) (d : RawDevice) : Bool :=
  match t.TType with
  | .MAC => (d.macaddr.getD "") == t.Value
  | .SSID =>
    match d.ssid with
    | some s => s == t.Value && d.channel.isSome
    | none => false

/-- kismet.go `FindValidTarget`, result for a matching target: a MAC
target is returned as is; an SSID target is rewritten in place —
`OriginalValue` keeps the old value and `Value` becomes the discovered
address (default empty). -/
def resolveTarget (t : TargetItem) (d : RawDevice) :
    String × String × TargetItem :=
  match t.TType with
  | .MAC => (t.Value, d.channel.getD "", t)
  | .SSID =>
    let macAddr := d.macaddr.getD ""
    (macAddr, d.channel.getD "",
      { t with OriginalValue := t.Value, Value := macAddr })

/-- kismet.go `FindValidTarget`, inner device loop for one target. -/
def findDevice (t : TargetItem) : List RawDevice → Option RawDevice
  | [] => none
  | d :: ds => if targetMatches t d then some d else findDevice t ds

/-- kismet.go `FindValidTarget` on a decoded device list.  The second
component is the registry after the call: the Go code mutates the
matched target through its pointer into the registry, so the matched
entry is replaced by its resolved form and all other entries are kept. -/
def FindValidTarget : List TargetItem → List RawDevice →
    Option (String × String × TargetItem) × List TargetItem
  | [], _ => (none, [])
  | t :: ts, ds =>
    if t.IsIgnored then
      let r := FindValidTarget ts ds
      (r.1, t :: r.2)
    else
      match findDevice t ds with
      | some d =>
        let v := resolveTarget t d
        (some v, v.2.2 :: ts)
      | none =>
        let r := FindValidTarget ts ds
        (r.1, t :: r.2)

/-- main.go `contains`. -/
def contains (slice : List String) (item : String) : Bool :=
  match slice with
  | [] => false
  | v :: rest => if v == item then true else contains rest item

/-- main.go `findValidMac`, inner device loop for one target address.
`device["base.macaddr"].(string)` is an unchecked type assertion: when
the field is absent or not a string the Go program panics, modelled as
`Except.error ()`.  The channel assertion is checked (`ok`), so a
matching device without a string channel is skipped. -/
def scanDevices (mac : String) : List RawDevice → Except Unit (Option String)
  | [] => .ok none
  | d :: ds =>
    match d.macaddr with
    | none => .error ()
    | some mstr =>
      if mstr == mac then
        match d.channel with
        | some ch => .ok (some ch)
        | none => scanDevices mac ds
      else scanDevices mac ds

/-- main.go `findValidMac`, outer loop over the target addresses. -/
def findValidMacLoop (devices : List RawDevice) (ignoreMacs : List String) :
    List String → Except Unit (String × String)
  | [] => .ok ("", "")
  | mac :: macs =>
    if contains ignoreMacs mac then findValidMacLoop devices ignoreMacs macs
    else
      match scanDevices mac devices with
      | .error e => .error e
      | .ok (some ch) => .ok (mac, ch)
      | .ok none => findValidMacLoop devices ignoreMacs macs

/-- main.go `findValidMac` as a function of the detector response:
`none` stands for any failed or non-200 or undecodable exchange, where
the function returns `("", "")` after logging. -/
def findValidMac (macs ignoreMacs : List String)
    (resp : Option (List RawDevice)) : Except Unit (String × String) :=
  match resp with
  | none => .ok ("", "")
  | some devices => findValidMacLoop devices ignoreMacs macs

/-- The part_004 `Model`, restricted to the acquisition state (presentation
fields omitted, see the header comment).  Time is in milliseconds. -/
structure Model where
  rssi : Int
  rssiData : List Int
  lockedTarget : Option TargetItem
  channel : String
  channelLocked : Bool
  lastReceived : Nat
  targets : List TargetItem
  lockedDeviceInfo : Option DeviceInfo
deriving DecidableEq

/-- The initial model built in `main` (part_001): `rssi = MinRSSI`, no
locked target, an empty history buffer, `lastReceived = time.Now()`. -/
def initModel (targets : List TargetItem) (startTime : Nat) : Model :=
  { rssi := MinRSSI
    rssiData := []
    lockedTarget := none
    channel := ""
    channelLocked := false
    lastReceived := startTime
    targets := targets
    lockedDeviceInfo := none }

/-- The part_004 tick handler, history append: `append` then drop the front
entry when the length exceeds 50. -/
def pushSample (data : List Int) (x : Int) : List Int :=
  let d := data ++ [x]
  if d.length > 50 then d.drop 1 else d

/-- Environment of one tick: the clock, the discovery-poll response
consumed by `FindValidTarget` (`none` when that exchange failed), the
response consumed by `FetchDeviceInfo`, and whether a `lockChannel`
call issued this tick would succeed. -/
structure TickInput where
  now : Nat
  findDevices : Option (List RawDevice)
  fetch : FetchResult
  lockSucceeds : Bool

/-- The part_004 tick handler, discovery: when no target is locked, run
`FindValidTarget`; on a non-empty value adopt the returned target with
`channelLocked = false`.  The registry reflects the in-place rewrite
even when the returned value is empty. -/
def searchPhase (m : Model) (inp : TickInput) : Model :=
  if m.lockedTarget.isNone then
    match inp.findDevices with
    | none => m
    | some ds =>
      match FindValidTarget m.targets ds with
      | (some (v, ch, t'), targets') =>
        if v ≠ "" then
          { m with lockedTarget := some t', channel := ch,
                   channelLocked := false, targets := targets' }
        else { m with targets := targets' }
      | (none, targets') => { m with targets := targets' }
  else m

/-- The part_004 tick handler, sample processing: with a locked target and
a `DeviceInfo` from the detector, record the fresh sample, attempt
`lockChannel` when not yet locked (counted by the second component;
on failure `channelLocked` stays false), then append to the history
buffer. -/
def fetchPhase (m : Model) (inp : TickInput) : Model × Nat :=
  match m.lockedTarget with
  | none => (m, 0)
  | some lt =>
    match FetchDeviceInfo lt.Value inp.fetch with
    | none => (m, 0)
    | some di =>
      let m1 := { m with rssi := di.RSSI, channel := di.Channel,
                         lastReceived := inp.now,
                         lockedDeviceInfo := some di }
      let r :=
        if !m1.channelLocked then
          if inp.lockSucceeds then ({ m1 with channelLocked := true }, 1)
          else (m1, 1)
        else (m1, 0)
      ({ r.1 with rssiData := pushSample r.1.rssiData r.1.rssi }, r.2)

/-- The part_004 tick handler, decay: when the last sample is older than
`staleTimeout` and `rssi > MinRSSI`, subtract `decayRate` and clamp at
`MinRSSI`. -/
def decayPhase (m : Model) (inp : TickInput) : Model :=
  if inp.now - m.lastReceived > staleTimeout ∧ m.rssi > MinRSSI then
    let r := m.rssi - decayRate
    { m with rssi := if r < MinRSSI then MinRSSI else r }
  else m

/-- The part_004 `Model.Update`, `tickMsg` case.  The second component is
the number of `lockChannel` calls issued (0 or 1). -/
def tickStep (m : Model) (inp : TickInput) : Model × Nat :=
  let m1 := searchPhase m inp
  let r := fetchPhase m1 inp
  (decayPhase r.1 inp, r.2)

/-- Iterated tick handler. -/
def runTicks (m : Model) : List TickInput → Model
  | [] => m
  | inp :: rest => runTicks (tickStep m inp).1 rest

/-- Total number of `lockChannel` calls issued over a tick sequence. -/
def totalLockCalls (m : Model) : List TickInput → Nat
  | [] => 0
  | inp :: rest =>
    (tickStep m inp).2 + totalLockCalls (tickStep m inp).1 rest

/-- The part_004 `Model.Update`, the registry-propagation test used by the
enter and ignore key handlers: a MAC locked target matches a registry
entry by `Value`, an SSID one by `OriginalValue`. -/
def targetKeyMatches (lt target : TargetItem) : Bool :=
  (lt.TType == TargetType.MAC && target.Value == lt.Value) ||
  (lt.TType == TargetType.SSID && target.OriginalValue == lt.OriginalValue)

/-- The part_004 `Model.Update`, the registry-propagation loop: set the
`Ignored` flag of the first entry matching the locked target and stop. -/
def setIgnoredFlag (lt : TargetItem) (b : Bool) :
    List TargetItem → List TargetItem
  | [] => []
  | t :: ts =>
    if targetKeyMatches lt t then { t with Ignored := b } :: ts
    else t :: setIgnoredFlag lt b ts

/-- The part_004 `Model.Update`, enter key: `idx` selects a registry entry
(the list widget shares the registry's records).  An ignored selection
is un-ignored; a locked target with a locked channel is auto-ignored
(toggled through the shared pointer and propagated) and one
`hopChannel` call is issued (the second component); then the
acquisition state is reset.  The Go handler reuses `time.Now()` for
`lastReceived`, passed here as `now`. -/
def enterKey (m : Model) (idx : Nat) (now : Nat) : Model × Nat :=
  match m.targets[idx]? with
  | none => (m, 0)
  | some sel =>
    let targets1 :=
      if sel.IsIgnored then m.targets.set idx sel.ToggleIgnore else m.targets
    let m1 := { m with targets := targets1 }
    let r :=
      match m1.lockedTarget with
      | some lt =>
        if m1.channelLocked then
          let lt' := lt.ToggleIgnore
          ({ m1 with lockedTarget := some lt',
                     targets := setIgnoredFlag lt' true m1.targets }, 1)
        else (m1, 0)
      | none => (m1, 0)
    ({ r.1 with lockedTarget := none, lockedDeviceInfo := none,
                channelLocked := false, rssi := MinRSSI, channel := "",
                lastReceived := now }, r.2)

/-- The part_004 `Model.Update`, `i` key: toggle the locked target's ignore
flag, propagate it to the registry, clear the locked target and the
channel state; a `hopChannel` call (the second component) is issued in
every case, also when nothing is locked. -/
def iKey (m : Model) : Model × Nat :=
  match m.lockedTarget with
  | some lt =>
    let lt' := lt.ToggleIgnore
    ({ m with lockedTarget := none, lockedDeviceInfo := none,
              channel := "", channelLocked := false,
              targets := setIgnoredFlag lt' lt'.Ignored m.targets }, 1)
  | none => (m, 1)

/-! Concrete example data used by witness theorems. -/

/-- An ignored MAC target. -/
def exTargetA : TargetItem := ⟨"a", .MAC, "", true, false, false⟩

/-- A non-ignored MAC target. -/
def exTargetB : TargetItem := ⟨"b", .MAC, "", false, false, false⟩

/-- A device record matching `exTargetA`. -/
def exDeviceA : RawDevice := ⟨some "a", some "1", none, none, none, none, none, none⟩

/-- A device record matching `exTargetB`. -/
def exDeviceB : RawDevice := ⟨some "b", some "6", none, none, none, none, none, none⟩

/-- A second non-ignored MAC target. -/
def exTargetC : TargetItem := ⟨"c", .MAC, "", false, false, false⟩

/-- A device record matching `exTargetB` with an in-range signal. -/
def exDeviceRSSI : RawDevice :=
  ⟨some "b", some "6", some (-40), none, none, none, none, none⟩

/-- A state locked to `exTargetB` with the channel locked. -/
def exModelLocked : Model :=
  { rssi := -40, rssiData := [], lockedTarget := some exTargetB,
    channel := "6", channelLocked := true, lastReceived := 0,
    targets := [exTargetB], lockedDeviceInfo := none }

/-- Same state before the channel-lock call has succeeded. -/
def exModelAcquiring : Model := { exModelLocked with channelLocked := false }

/-- A two-target registry locked to `exTargetB`. -/
def exModelTwo : Model := { exModelLocked with targets := [exTargetB, exTargetC] }

/-- A tick 6 s after the last sample on which the detector returns
nothing. -/
def exTickQuiet : TickInput := ⟨6000, none, FetchResult.netFail, true⟩

/-- A tick delivering a fresh in-range sample for `exTargetB`, on which
a lock call would fail. -/
def exTickSample : TickInput :=
  ⟨0, some [exDeviceRSSI], FetchResult.okDevices [exDeviceRSSI], false⟩

/-! Helper lemmas. -/

theorem pushSample_length_le (l : List Int) (x : Int) (h : l.length ≤ 50) :
    (pushSample l x).length ≤ 50 := by
  simp only [pushSample]
  split
  · simpa using h
  · next h2 =>
    simp only [List.length_append, List.length_cons, List.length_nil] at h2 ⊢
    omega

theorem foldl_pushSample_eq (xs : List Int) :
    ∀ l : List Int, l.length ≤ 50 →
      List.foldl pushSample l xs = (l ++ xs).drop ((l ++ xs).length - 50) := by
  induction xs with
  | nil =>
    intro l h
    simp only [List.foldl_nil, List.append_nil]
    rw [Nat.sub_eq_zero_of_le h, List.drop_zero]
  | cons x xs ih =>
    intro l h
    rw [List.foldl_cons, ih _ (pushSample_length_le l x h)]
    have hassoc : l ++ x :: xs = (l ++ [x]) ++ xs := by simp
    by_cases hlen : l.length = 50
    · have hgt : (l ++ [x]).length > 50 := by simp [hlen]
      have hp : pushSample l x = (l ++ [x]).drop 1 := by
        simp only [pushSample]
        rw [if_pos hgt]
      have h1 : (1 : Nat) ≤ (l ++ [x]).length := by simp
      rw [hp, ← List.drop_append_of_le_length h1, List.drop_drop, hassoc]
      congr 1
      simp only [List.length_append, List.length_drop, List.length_cons,
        List.length_nil]
      omega
    · have hng : ¬ (l ++ [x]).length > 50 := by
        simp only [List.length_append, List.length_cons, List.length_nil]
        omega
      have hp : pushSample l x = l ++ [x] := by
        simp only [pushSample]
        rw [if_neg hng]
      rw [hp, hassoc]

theorem searchPhase_rssiData (m : Model) (inp : TickInput) :
    (searchPhase m inp).rssiData = m.rssiData := by
  unfold searchPhase
  split
  · split
    · rfl
    · split
      · split <;> rfl
      · rfl
  · rfl

theorem searchPhase_rssi (m : Model) (inp : TickInput) :
    (searchPhase m inp).rssi = m.rssi := by
  unfold searchPhase
  split
  · split
    · rfl
    · split
      · split <;> rfl
      · rfl
  · rfl

theorem searchPhase_lastReceived (m : Model) (inp : TickInput) :
    (searchPhase m inp).lastReceived = m.lastReceived := by
  unfold searchPhase
  split
  · split
    · rfl
    · split
      · split <;> rfl
      · rfl
  · rfl

theorem searchPhase_of_locked (m : Model) (inp : TickInput) (t : TargetItem)
    (h : m.lockedTarget = some t) : searchPhase m inp = m := by
  unfold searchPhase
  simp [h]

theorem decayPhase_lockedTarget (m : Model) (inp : TickInput) :
    (decayPhase m inp).lockedTarget = m.lockedTarget := by
  unfold decayPhase
  split <;> rfl

theorem decayPhase_channelLocked (m : Model) (inp : TickInput) :
    (decayPhase m inp).channelLocked = m.channelLocked := by
  unfold decayPhase
  split <;> rfl

theorem decayPhase_rssiData (m : Model) (inp : TickInput) :
    (decayPhase m inp).rssiData = m.rssiData := by
  unfold decayPhase
  split <;> rfl

theorem decayPhase_rssi_range (m : Model) (inp : TickInput)
    (h1 : MinRSSI ≤ m.rssi) (h2 : m.rssi ≤ MaxRSSI) :
    MinRSSI ≤ (decayPhase m inp).rssi ∧ (decayPhase m inp).rssi ≤ MaxRSSI := by
  unfold decayPhase
  split
  · dsimp only
    simp only [MinRSSI, MaxRSSI, decayRate] at *
    constructor <;> split <;> omega
  · exact ⟨h1, h2⟩

theorem findInfo_mem (mac : String) :
    ∀ (ds : List RawDevice) (di : DeviceInfo), findInfo mac ds = some di →
      ∃ d ∈ ds, di = buildDeviceInfo d := by
  intro ds
  induction ds with
  | nil => intro di h; simp [findInfo] at h
  | cons d rest ih =>
    intro di h
    unfold findInfo at h
    cases hmac : d.macaddr with
    | none =>
      rw [hmac] at h
      obtain ⟨d', hmem, hd'⟩ := ih di h
      exact ⟨d', by simp [hmem], hd'⟩
    | some mstr =>
      rw [hmac] at h
      dsimp only at h
      by_cases heq : (mstr == mac) = true
      · rw [if_pos heq] at h
        exact ⟨d, by simp, by injection h with h; exact h.symm⟩
      · rw [if_neg heq] at h
        obtain ⟨d', hmem, hd'⟩ := ih di h
        exact ⟨d', by simp [hmem], hd'⟩

theorem fetchDeviceInfo_mem (mac : String) (r : FetchResult) (di : DeviceInfo)
    (h : FetchDeviceInfo mac r = some di) :
    ∃ d ∈ fetchDevices r, di = buildDeviceInfo d := by
  cases r with
  | okDevices ds => exact findInfo_mem mac ds di h
  | netFail => simp [FetchDeviceInfo] at h
  | httpError => simp [FetchDeviceInfo] at h
  | decodeError => simp [FetchDeviceInfo] at h

theorem fetchPhase_rssi (m : Model) (inp : TickInput) :
    (fetchPhase m inp).1.rssi = m.rssi ∨
    ∃ lt di, m.lockedTarget = some lt ∧
      FetchDeviceInfo lt.Value inp.fetch = some di ∧
      (fetchPhase m inp).1.rssi = di.RSSI := by
  unfold fetchPhase
  split
  · left; rfl
  · next lt heq =>
    split
    · left; rfl
    · next di hf =>
      right
      refine ⟨lt, di, heq, hf, ?_⟩
      dsimp only
      split <;> first
        | rfl
        | (split <;> rfl)

theorem tickStep_fst (m : Model) (inp : TickInput) :
    (tickStep m inp).1 = decayPhase (fetchPhase (searchPhase m inp) inp).1 inp :=
  rfl

theorem tickStep_snd (m : Model) (inp : TickInput) :
    (tickStep m inp).2 = (fetchPhase (searchPhase m inp) inp).2 :=
  rfl

theorem tickStep_rssi_range (m : Model) (inp : TickInput)
    (h1 : MinRSSI ≤ m.rssi) (h2 : m.rssi ≤ MaxRSSI)
    (hin : ∀ d ∈ fetchDevices inp.fetch,
        MinRSSI ≤ d.rssi.getD MinRSSI ∧ d.rssi.getD MinRSSI ≤ MaxRSSI) :
    MinRSSI ≤ (tickStep m inp).1.rssi ∧ (tickStep m inp).1.rssi ≤ MaxRSSI := by
  have hs := searchPhase_rssi m inp
  have hfr : MinRSSI ≤ (fetchPhase (searchPhase m inp) inp).1.rssi ∧
      (fetchPhase (searchPhase m inp) inp).1.rssi ≤ MaxRSSI := by
    rcases fetchPhase_rssi (searchPhase m inp) inp with h | ⟨lt, di, _, hfd, hr⟩
    · rw [h, hs]; exact ⟨h1, h2⟩
    · obtain ⟨d, hdmem, hdi⟩ := fetchDeviceInfo_mem _ _ _ hfd
      rw [hr, hdi]
      simpa [buildDeviceInfo] using hin d hdmem
  rw [tickStep_fst]
  exact decayPhase_rssi_range _ inp hfr.1 hfr.2

theorem runTicks_rssi_range :
    ∀ (inputs : List TickInput) (m : Model),
      MinRSSI ≤ m.rssi → m.rssi ≤ MaxRSSI →
      (∀ inp ∈ inputs, ∀ d ∈ fetchDevices inp.fetch,
          MinRSSI ≤ d.rssi.getD MinRSSI ∧ d.rssi.getD MinRSSI ≤ MaxRSSI) →
      MinRSSI ≤ (runTicks m inputs).rssi ∧ (runTicks m inputs).rssi ≤ MaxRSSI := by
  intro inputs
  induction inputs with
  | nil => intro m h1 h2 _; exact ⟨h1, h2⟩
  | cons inp rest ih =>
    intro m h1 h2 hin
    have hstep := tickStep_rssi_range m inp h1 h2 (hin inp (by simp))
    exact ih (tickStep m inp).1 hstep.1 hstep.2
      (fun i hi d hd => hin i (by simp [hi]) d hd)

theorem fetchPhase_of_channelLocked (m : Model) (inp : TickInput)
    (hc : m.channelLocked = true) :
    (fetchPhase m inp).2 = 0 ∧
    (fetchPhase m inp).1.lockedTarget = m.lockedTarget ∧
    (fetchPhase m inp).1.channelLocked = true := by
  unfold fetchPhase
  split
  · exact ⟨rfl, rfl, hc⟩
  · next lt heq =>
    split
    · exact ⟨rfl, rfl, hc⟩
    · next di hf =>
      refine ⟨?_, ?_, ?_⟩ <;> simp [hc]

theorem fetchPhase_retry (m : Model) (inp : TickInput) (t : TargetItem)
    (di : DeviceInfo)
    (hl : m.lockedTarget = some t) (hc : m.channelLocked = false)
    (hf : FetchDeviceInfo t.Value inp.fetch = some di) :
    (fetchPhase m inp).2 = 1 ∧
    (inp.lockSucceeds = false → (fetchPhase m inp).1.channelLocked = false) := by
  unfold fetchPhase
  split
  · next h0 => rw [hl] at h0; cases h0
  · next lt heq =>
    rw [hl] at heq
    injection heq with heq'
    subst heq'
    split
    · next h0 => rw [hf] at h0; cases h0
    · next di' hf' =>
      rw [hf] at hf'
      injection hf' with hdd
      constructor
      · cases hls : inp.lockSucceeds <;> simp [hc, hls]
      · intro hlf
        simp [hc, hlf]

theorem fetchPhase_of_notFound (m : Model) (inp : TickInput) (t : TargetItem)
    (hl : m.lockedTarget = some t)
    (hf : FetchDeviceInfo t.Value inp.fetch = none) :
    fetchPhase m inp = (m, 0) := by
  unfold fetchPhase
  split
  · rfl
  · next lt heq =>
    rw [hl] at heq
    injection heq with heq'
    subst heq'
    split
    · rfl
    · next di hf' => rw [hf] at hf'; cases hf'

theorem tickStep_locked (m : Model) (inp : TickInput) (t : TargetItem)
    (hl : m.lockedTarget = some t) (hc : m.channelLocked = true) :
    (tickStep m inp).2 = 0 ∧ (tickStep m inp).1.lockedTarget = some t ∧
    (tickStep m inp).1.channelLocked = true := by
  have hs : searchPhase m inp = m := searchPhase_of_locked m inp t hl
  have hfp := fetchPhase_of_channelLocked m inp hc
  rw [tickStep_fst, tickStep_snd, hs]
  exact ⟨hfp.1, by rw [decayPhase_lockedTarget, hfp.2.1, hl],
    by rw [decayPhase_channelLocked, hfp.2.2]⟩

theorem runTicks_locked :
    ∀ (inputs : List TickInput) (m : Model) (t : TargetItem),
      m.lockedTarget = some t → m.channelLocked = true →
      totalLockCalls m inputs = 0 ∧
      (runTicks m inputs).lockedTarget = some t ∧
      (runTicks m inputs).channelLocked = true := by
  intro inputs
  induction inputs with
  | nil => intro m t hl hc; exact ⟨rfl, hl, hc⟩
  | cons inp rest ih =>
    intro m t hl hc
    have hstep := tickStep_locked m inp t hl hc
    have ihr := ih (tickStep m inp).1 t hstep.2.1 hstep.2.2
    refine ⟨?_, ihr.2.1, ihr.2.2⟩
    show (tickStep m inp).2 + totalLockCalls (tickStep m inp).1 rest = 0
    rw [hstep.1, ihr.1]

theorem fetchPhase_rssiData (m : Model) (inp : TickInput) :
    (fetchPhase m inp).1.rssiData = m.rssiData ∨
    ∃ x, (fetchPhase m inp).1.rssiData = pushSample m.rssiData x := by
  unfold fetchPhase
  split
  · left; rfl
  · next lt heq =>
    split
    · left; rfl
    · next di hf =>
      right
      refine ⟨di.RSSI, ?_⟩
      dsimp only
      split
      · split <;> rfl
      · rfl

theorem findDevice_some (t : TargetItem) :
    ∀ (ds : List RawDevice) (d : RawDevice), findDevice t ds = some d →
      d ∈ ds ∧ targetMatches t d = true := by
  intro ds
  induction ds with
  | nil => intro d h; simp [findDevice] at h
  | cons d0 rest ih =>
    intro d h
    unfold findDevice at h
    by_cases hm : targetMatches t d0 = true
    · rw [if_pos hm] at h
      injection h with h
      subst h
      exact ⟨by simp, hm⟩
    · rw [if_neg hm] at h
      obtain ⟨hmem, hmatch⟩ := ih d h
      exact ⟨by simp [hmem], hmatch⟩

theorem resolveTarget_Ignored (t : TargetItem) (d : RawDevice) :
    ((resolveTarget t d).2.2).Ignored = t.Ignored := by
  unfold resolveTarget
  split <;> rfl

theorem findDevice_none_of_ssid (t : TargetItem)
    (hty : t.TType = TargetType.SSID) :
    ∀ ds : List RawDevice, (∀ d ∈ ds, d.ssid ≠ some t.Value) →
      findDevice t ds = none := by
  intro ds
  induction ds with
  | nil => intro _; rfl
  | cons d rest ih =>
    intro hno
    have hm : targetMatches t d = false := by
      unfold targetMatches
      rw [hty]
      dsimp only
      cases hs : d.ssid with
      | none => rfl
      | some s =>
        have hne : ¬ (s = t.Value) := by
          intro hcontra
          exact hno d (by simp) (by rw [hs, hcontra])
        simp [hne]
    unfold findDevice
    rw [if_neg (by simp [hm])]
    exact ih (fun d' hd' => hno d' (by simp [hd']))

theorem targetKeyMatches_toggle (lt u : TargetItem) :
    targetKeyMatches lt.ToggleIgnore u = targetKeyMatches lt u := rfl

theorem setIgnoredFlag_append (lt : TargetItem) (b : Bool) :
    ∀ (pre : List TargetItem) (t0 : TargetItem) (post : List TargetItem),
      (∀ u ∈ pre, targetKeyMatches lt u = false) →
      targetKeyMatches lt t0 = true →
      setIgnoredFlag lt b (pre ++ t0 :: post) =
        pre ++ { t0 with Ignored := b } :: post := by
  intro pre
  induction pre with
  | nil =>
    intro t0 post _ h2
    show setIgnoredFlag lt b (t0 :: post) = { t0 with Ignored := b } :: post
    unfold setIgnoredFlag
    rw [if_pos h2]
  | cons u us ihp =>
    intro t0 post h1 h2
    have hu : targetKeyMatches lt u = false := h1 u (by simp)
    show setIgnoredFlag lt b (u :: (us ++ t0 :: post)) =
      u :: (us ++ { t0 with Ignored := b } :: post)
    unfold setIgnoredFlag
    rw [if_neg (by simp [hu])]
    rw [ihp t0 post (fun v hv => h1 v (by simp [hv])) h2]

/-! Claim theorems. -/

/-- Claim C1, counterexample: the tick handler assigns a fresh sample
to `rssi` unclamped, so a detector response reporting RSSI −10 drives
the displayed value above `MaxRSSI = -20` on the very first tick from
the initial state. -/
theorem claim_C1_cex :
    MaxRSSI <
      (runTicks
        (initModel [⟨"aa", TargetType.MAC, "", false, false, false⟩] 0)
        [⟨0, some [⟨some "aa", some "6", some (-10), none, none, none, none, none⟩],
          FetchResult.okDevices
            [⟨some "aa", some "6", some (-10), none, none, none, none, none⟩],
          true⟩]).rssi := by
  decide

/-- Claim C1, amended: starting from the initial state (whose signal
value is `MinRSSI`), for every tick sequence in which every device
record delivered by the detector carries a signal value within
`[MinRSSI, MaxRSSI]` (absent values default to `MinRSSI`), the
displayed signal value stays within `[MinRSSI, MaxRSSI]`: fresh-sample
assignments copy a reported value and decay steps never drop below
`MinRSSI` nor increase the value. -/
theorem claim_C1_amended (targets : List TargetItem) (startTime : Nat)
    (inputs : List TickInput)
    (hin : ∀ inp ∈ inputs, ∀ d ∈ fetchDevices inp.fetch,
        MinRSSI ≤ d.rssi.getD MinRSSI ∧ d.rssi.getD MinRSSI ≤ MaxRSSI) :
    MinRSSI ≤ (runTicks (initModel targets startTime) inputs).rssi ∧
    (runTicks (initModel targets startTime) inputs).rssi ≤ MaxRSSI :=
  runTicks_rssi_range inputs (initModel targets startTime) (le_refl MinRSSI)
    (by simp [initModel, MinRSSI, MaxRSSI]) hin

/-- Witness for the amended claim C1 at a concrete in-range run. -/
theorem claim_C1_amended_witness :
    MinRSSI ≤ (runTicks (initModel [exTargetB] 0) [exTickSample]).rssi ∧
    (runTicks (initModel [exTargetB] 0) [exTickSample]).rssi ≤ MaxRSSI :=
  claim_C1_amended [exTargetB] 0 [exTickSample] (by decide)

/-- Claim C2: once `channelLocked` is true for the current locked
target, no tick issues a further `lockChannel` call and the locked
target and flag persist across any tick sequence; while the flag is
false and a fresh sample arrives, exactly one lock call is issued on
that tick, and a failed call leaves the flag false. -/
theorem claim_C2 :
    (∀ (m : Model) (t : TargetItem) (inputs : List TickInput),
        m.lockedTarget = some t → m.channelLocked = true →
        totalLockCalls m inputs = 0 ∧
        (runTicks m inputs).lockedTarget = some t ∧
        (runTicks m inputs).channelLocked = true) ∧
    (∀ (m : Model) (t : TargetItem) (inp : TickInput) (di : DeviceInfo),
        m.lockedTarget = some t → m.channelLocked = false →
        FetchDeviceInfo t.Value inp.fetch = some di →
        (tickStep m inp).2 = 1 ∧
        (inp.lockSucceeds = false →
          (tickStep m inp).1.channelLocked = false)) := by
  constructor
  · intro m t inputs hl hc
    exact runTicks_locked inputs m t hl hc
  · intro m t inp di hl hc hf
    have hs : searchPhase m inp = m := searchPhase_of_locked m inp t hl
    have hr := fetchPhase_retry m inp t di hl hc hf
    rw [tickStep_fst, tickStep_snd, hs]
    exact ⟨hr.1, fun hlf => by rw [decayPhase_channelLocked]; exact hr.2 hlf⟩

/-- Witness for claim C2: a locked state issues no lock call across a
quiet tick, and an acquiring state retries and stays unlocked when the
lock call fails. -/
theorem claim_C2_witness :
    (totalLockCalls exModelLocked [exTickQuiet] = 0 ∧
     (runTicks exModelLocked [exTickQuiet]).lockedTarget = some exTargetB ∧
     (runTicks exModelLocked [exTickQuiet]).channelLocked = true) ∧
    ((tickStep exModelAcquiring exTickSample).2 = 1 ∧
     (exTickSample.lockSucceeds = false →
        (tickStep exModelAcquiring exTickSample).1.channelLocked = false)) :=
  ⟨claim_C2.1 exModelLocked exTargetB [exTickQuiet] rfl rfl,
   claim_C2.2 exModelAcquiring exTargetB exTickSample
     (buildDeviceInfo exDeviceRSSI) rfl rfl (by decide)⟩

/-- Claim C3: on a tick with no fresh sample, more than `staleTimeout`
after the last sample, a locked state decays `rssi` by exactly
`decayRate` clamped at `MinRSSI` (strictly decreasing while above
`MinRSSI`, holding at `MinRSSI` once reached), and the decay step
changes neither `lockedTarget` nor `channelLocked`. -/
theorem claim_C3 (m : Model) (t : TargetItem) (inp : TickInput)
    (hl : m.lockedTarget = some t)
    (hf : FetchDeviceInfo t.Value inp.fetch = none)
    (hstale : inp.now - m.lastReceived > staleTimeout) :
    (m.rssi > MinRSSI →
       (tickStep m inp).1.rssi =
         (if m.rssi - decayRate < MinRSSI then MinRSSI
          else m.rssi - decayRate) ∧
       (tickStep m inp).1.rssi < m.rssi ∧
       MinRSSI ≤ (tickStep m inp).1.rssi) ∧
    (m.rssi = MinRSSI → (tickStep m inp).1.rssi = MinRSSI) ∧
    (tickStep m inp).1.lockedTarget = m.lockedTarget ∧
    (tickStep m inp).1.channelLocked = m.channelLocked := by
  have hs : searchPhase m inp = m := searchPhase_of_locked m inp t hl
  have hfp : fetchPhase m inp = (m, 0) := fetchPhase_of_notFound m inp t hl hf
  rw [tickStep_fst, hs, hfp]
  unfold decayPhase
  refine ⟨?_, ?_, ?_, ?_⟩
  · intro hr
    rw [if_pos ⟨hstale, hr⟩]
    refine ⟨rfl, ?_, ?_⟩
    · show (if m.rssi - decayRate < MinRSSI then MinRSSI
            else m.rssi - decayRate) < m.rssi
      simp only [MinRSSI, decayRate] at *
      split <;> omega
    · show MinRSSI ≤ (if m.rssi - decayRate < MinRSSI then MinRSSI
            else m.rssi - decayRate)
      simp only [MinRSSI, decayRate] at *
      split <;> omega
  · intro hr
    have hneg : ¬ (inp.now - m.lastReceived > staleTimeout ∧ m.rssi > MinRSSI) := by
      intro hcontra
      rw [hr] at hcontra
      exact absurd hcontra.2 (by simp [MinRSSI])
    rw [if_neg hneg]
    exact hr
  · split <;> rfl
  · split <;> rfl

/-- Witness for claim C3: a quiet tick 6 s after the last sample in a
locked state at −40 decays the signal to −50 and touches neither the
locked target nor the lock flag. -/
theorem claim_C3_witness :
    (exModelLocked.rssi > MinRSSI →
       (tickStep exModelLocked exTickQuiet).1.rssi =
         (if exModelLocked.rssi - decayRate < MinRSSI then MinRSSI
          else exModelLocked.rssi - decayRate) ∧
       (tickStep exModelLocked exTickQuiet).1.rssi < exModelLocked.rssi ∧
       MinRSSI ≤ (tickStep exModelLocked exTickQuiet).1.rssi) ∧
    (exModelLocked.rssi = MinRSSI →
       (tickStep exModelLocked exTickQuiet).1.rssi = MinRSSI) ∧
    (tickStep exModelLocked exTickQuiet).1.lockedTarget =
      exModelLocked.lockedTarget ∧
    (tickStep exModelLocked exTickQuiet).1.channelLocked =
      exModelLocked.channelLocked :=
  claim_C3 exModelLocked exTargetB exTickQuiet rfl (by decide) (by decide)

/-- Claim C4: the history buffer built by the tick handler's append
operation never exceeds 50 entries and always equals the suffix of the
appended samples of length at most 50 (oldest dropped first); one tick
either leaves the buffer unchanged or performs exactly one such
append. -/
theorem claim_C4 :
    (∀ xs : List Int,
        (List.foldl pushSample [] xs).length ≤ 50 ∧
        List.foldl pushSample [] xs = xs.drop (xs.length - 50)) ∧
    (∀ (m : Model) (inp : TickInput),
        (tickStep m inp).1.rssiData = m.rssiData ∨
        ∃ x, (tickStep m inp).1.rssiData = pushSample m.rssiData x) := by
  constructor
  · intro xs
    have h := foldl_pushSample_eq xs [] (by simp)
    simp only [List.nil_append] at h
    refine ⟨?_, h⟩
    rw [h]
    simp only [List.length_drop]
    omega
  · intro m inp
    have hd : (tickStep m inp).1.rssiData =
        (fetchPhase (searchPhase m inp) inp).1.rssiData := by
      rw [tickStep_fst]
      exact decayPhase_rssiData _ _
    rw [hd]
    have hsr := searchPhase_rssiData m inp
    rcases fetchPhase_rssiData (searchPhase m inp) inp with h | ⟨x, h⟩
    · left; rw [h, hsr]
    · right; exact ⟨x, by rw [h, hsr]⟩

/-- Claim C6, code evaluation at the failing input: `findValidMac`
performs an unchecked string type assertion on `base.macaddr`, so a
successfully decoded poll response containing a device record without
that field makes the program panic (modelled as `Except.error ()`)
while searching for a non-ignored target. -/
theorem claim_C6_evaluation :
    findValidMac ["a"] []
      (some [⟨none, none, none, none, none, none, none, none⟩]) =
      Except.error () := rfl

/-- Claim C5: whenever `FindValidTarget` selects a target, the selected
target is not ignored and corresponds to the first registry entry (in
registry order) that is non-ignored and matches some device of the poll
result; every earlier registry entry is either ignored or matches no
device, independently of where its devices sit in the response. -/
theorem claim_C5 :
    ∀ (targets : List TargetItem) (ds : List RawDevice)
      (v ch : String) (t' : TargetItem),
      (FindValidTarget targets ds).1 = some (v, ch, t') →
      t'.Ignored = false ∧
      ∃ n tn, targets[n]? = some tn ∧ tn.Ignored = false ∧
        (∃ d, findDevice tn ds = some d ∧ (v, ch, t') = resolveTarget tn d) ∧
        ∀ (j : Nat) (tj : TargetItem), j < n → targets[j]? = some tj →
          tj.Ignored = true ∨ findDevice tj ds = none := by
  intro targets
  induction targets with
  | nil => intro ds v ch t' h; simp [FindValidTarget] at h
  | cons t ts ih =>
    intro ds v ch t' h
    by_cases hig : t.IsIgnored = true
    · have hred : (FindValidTarget (t :: ts) ds).1 = (FindValidTarget ts ds).1 := by
        simp only [FindValidTarget]
        rw [if_pos hig]
      rw [hred] at h
      obtain ⟨hI, n, tn, hget, hni, hmatch, hearlier⟩ := ih ds v ch t' h
      refine ⟨hI, n + 1, tn, by simpa using hget, hni, hmatch, ?_⟩
      intro j tj hj hgj
      cases j with
      | zero =>
        left
        simp at hgj
        subst hgj
        exact hig
      | succ j =>
        exact hearlier j tj (by omega) (by simpa using hgj)
    · have hig' : t.Ignored = false := by
        simpa [TargetItem.IsIgnored] using hig
      cases hfd : findDevice t ds with
      | some d =>
        have hred : (FindValidTarget (t :: ts) ds).1 =
            some (resolveTarget t d) := by
          simp only [FindValidTarget]
          rw [if_neg hig, hfd]
          try rfl
        rw [hred] at h
        injection h with h2
        refine ⟨?_, 0, t, by simp, hig', ⟨d, hfd, h2.symm⟩, ?_⟩
        · have hres := resolveTarget_Ignored t d
          rw [h2] at hres
          rw [← hig']
          exact hres
        · intro j tj hj hgj
          omega
      | none =>
        have hred : (FindValidTarget (t :: ts) ds).1 =
            (FindValidTarget ts ds).1 := by
          simp only [FindValidTarget]
          rw [if_neg hig, hfd]
          try rfl
        rw [hred] at h
        obtain ⟨hI, n, tn, hget, hni, hmatch, hearlier⟩ := ih ds v ch t' h
        refine ⟨hI, n + 1, tn, by simpa using hget, hni, hmatch, ?_⟩
        intro j tj hj hgj
        cases j with
        | zero =>
          right
          simp at hgj
          subst hgj
          exact hfd
        | succ j =>
          exact hearlier j tj (by omega) (by simpa using hgj)

/-- Witness for claim C5 at the two-target scenario: the first registry
target is ignored and its device is discovered first, yet acquisition
selects the second target. -/
theorem claim_C5_witness :
    exTargetB.Ignored = false ∧
    ∃ n tn, [exTargetA, exTargetB][n]? = some tn ∧ tn.Ignored = false ∧
      (∃ d, findDevice tn [exDeviceA, exDeviceB] = some d ∧
        ("b", "6", exTargetB) = resolveTarget tn d) ∧
      ∀ (j : Nat) (tj : TargetItem), j < n →
          [exTargetA, exTargetB][j]? = some tj →
        tj.Ignored = true ∨ findDevice tj [exDeviceA, exDeviceB] = none :=
  claim_C5 [exTargetA, exTargetB] [exDeviceA, exDeviceB] "b" "6" exTargetB
    (by decide)

/-- Registry entries of SSID type whose stored value matches no
broadcast name in the poll result are left untouched by
`FindValidTarget`. -/
theorem FindValidTarget_preserves :
    ∀ (targets : List TargetItem) (ds : List RawDevice) (n : Nat)
      (tn : TargetItem),
      targets[n]? = some tn → tn.TType = TargetType.SSID →
      (∀ d ∈ ds, d.ssid ≠ some tn.Value) →
      ((FindValidTarget targets ds).2)[n]? = some tn := by
  intro targets
  induction targets with
  | nil => intro ds n tn h _ _; simp at h
  | cons t ts ih =>
    intro ds n tn hget hty hno
    by_cases hig : t.IsIgnored = true
    · have hred : (FindValidTarget (t :: ts) ds).2 =
          t :: (FindValidTarget ts ds).2 := by
        simp only [FindValidTarget]
        rw [if_pos hig]
        try rfl
      rw [hred]
      cases n with
      | zero => simpa using hget
      | succ n =>
        rw [List.getElem?_cons_succ]
        exact ih ds n tn (by simpa using hget) hty hno
    · cases hfd : findDevice t ds with
      | some d =>
        have hred : (FindValidTarget (t :: ts) ds).2 =
            (resolveTarget t d).2.2 :: ts := by
          simp only [FindValidTarget]
          rw [if_neg hig, hfd]
          try rfl
        rw [hred]
        cases n with
        | zero =>
          exfalso
          simp at hget
          subst hget
          have hnone := findDevice_none_of_ssid t hty ds hno
          rw [hfd] at hnone
          exact Option.noConfusion hnone
        | succ n =>
          rw [List.getElem?_cons_succ]
          simpa using hget
      | none =>
        have hred : (FindValidTarget (t :: ts) ds).2 =
            t :: (FindValidTarget ts ds).2 := by
          simp only [FindValidTarget]
          rw [if_neg hig, hfd]
          try rfl
        rw [hred]
        cases n with
        | zero => simpa using hget
        | succ n =>
          rw [List.getElem?_cons_succ]
          exact ih ds n tn (by simpa using hget) hty hno

/-- Claim C9, counterexample: a registry whose single SSID target was
already resolved (value `"aa"`, preserved display name `"net"`) is
rewritten again by a poll containing a device that broadcasts the name
`"aa"`: the stored value becomes `"bb"` and the preserved display name
is clobbered to `"aa"`. -/
theorem claim_C9_cex :
    (((FindValidTarget [⟨"aa", TargetType.SSID, "net", false, false, false⟩]
        [⟨some "bb", some "6", none, some "aa", none, none, none, none⟩]).2).map
          (fun t => t.Value) = ["bb"]) ∧
    (((FindValidTarget [⟨"aa", TargetType.SSID, "net", false, false, false⟩]
        [⟨some "bb", some "6", none, some "aa", none, none, none, none⟩]).2).map
          (fun t => t.OriginalValue) = ["aa"]) := by
  decide

/-- Claim C9, amended: matching for a resolved NAME target never reads
the preserved display name (`OriginalValue` is irrelevant to
`targetMatches`), and the stored value persists across every poll in
which no device's broadcast name equals the stored value; it is
re-overwritten only in that corner case. -/
theorem claim_C9_amended :
    (∀ (t : TargetItem) (d : RawDevice) (x : String),
        targetMatches { t with OriginalValue := x } d = targetMatches t d) ∧
    (∀ (targets : List TargetItem) (ds : List RawDevice) (n : Nat)
        (tn : TargetItem),
        targets[n]? = some tn → tn.TType = TargetType.SSID →
        (∀ d ∈ ds, d.ssid ≠ some tn.Value) →
        ((FindValidTarget targets ds).2)[n]? = some tn) :=
  ⟨fun _ _ _ => rfl, FindValidTarget_preserves⟩

/-- Witness for the amended claim C9: a resolved SSID target survives a
poll whose devices broadcast no name equal to its stored address. -/
theorem claim_C9_amended_witness :
    ((FindValidTarget [⟨"aa", TargetType.SSID, "net", false, false, false⟩]
        [exDeviceB]).2)[0]? =
      some ⟨"aa", TargetType.SSID, "net", false, false, false⟩ :=
  claim_C9_amended.2 [⟨"aa", TargetType.SSID, "net", false, false, false⟩]
    [exDeviceB] 0 ⟨"aa", TargetType.SSID, "net", false, false, false⟩
    (by decide) (by decide) (by decide)

/-- Claim C7: selecting a (non-ignored) registry entry while a target
is locked with the channel locked auto-ignores the previously locked
target in the registry (its first matching entry gains `Ignored =
true`), issues exactly one `hopChannel` call, clears the locked target,
resets `channelLocked`, the channel string and the signal value, and
returns the engine to searching. -/
theorem claim_C7 (m : Model) (lt sel t0 : TargetItem) (idx now : Nat)
    (pre post : List TargetItem)
    (hl : m.lockedTarget = some lt)
    (hc : m.channelLocked = true)
    (hsel : m.targets[idx]? = some sel)
    (hselig : sel.Ignored = false)
    (hsplit : m.targets = pre ++ t0 :: post)
    (hpre : ∀ u ∈ pre, targetKeyMatches lt u = false)
    (ht0 : targetKeyMatches lt t0 = true) :
    (enterKey m idx now).2 = 1 ∧
    (enterKey m idx now).1.lockedTarget = none ∧
    (enterKey m idx now).1.channelLocked = false ∧
    (enterKey m idx now).1.channel = "" ∧
    (enterKey m idx now).1.rssi = MinRSSI ∧
    (enterKey m idx now).1.targets =
      pre ++ { t0 with Ignored := true } :: post := by
  unfold enterKey
  rw [hsel]
  dsimp only
  rw [if_neg (by simp [TargetItem.IsIgnored, hselig]), hl, hc]
  dsimp only
  rw [if_pos rfl]
  refine ⟨rfl, rfl, rfl, rfl, rfl, ?_⟩
  dsimp only
  rw [hsplit]
  exact setIgnoredFlag_append lt.ToggleIgnore true pre t0 post hpre ht0

/-- Witness for claim C7 on a concrete two-target state. -/
theorem claim_C7_witness :
    (enterKey exModelTwo 1 7000).2 = 1 ∧
    (enterKey exModelTwo 1 7000).1.lockedTarget = none ∧
    (enterKey exModelTwo 1 7000).1.channelLocked = false ∧
    (enterKey exModelTwo 1 7000).1.channel = "" ∧
    (enterKey exModelTwo 1 7000).1.rssi = MinRSSI ∧
    (enterKey exModelTwo 1 7000).1.targets =
      [] ++ { exTargetB with Ignored := true } :: [exTargetC] :=
  claim_C7 exModelTwo exTargetB exTargetC exTargetB 1 7000 [] [exTargetC]
    rfl rfl (by decide) (by decide) (by decide) (by simp) (by decide)

/-- Claim C8: with a target locked, the ignore key toggles that
target's ignore flag on its first matching registry entry and — in
particular when the target thereby becomes ignored — clears the locked
target, resets `channelLocked` and the channel string, and issues
exactly one hop-channel call; with nothing locked the state is
unchanged apart from the single hop call. -/
theorem claim_C8 :
    (∀ (m : Model) (lt t0 : TargetItem) (pre post : List TargetItem),
        m.lockedTarget = some lt →
        m.targets = pre ++ t0 :: post →
        (∀ u ∈ pre, targetKeyMatches lt u = false) →
        targetKeyMatches lt t0 = true →
        (iKey m).1.targets =
          pre ++ { t0 with Ignored := !lt.Ignored } :: post ∧
        (lt.Ignored = false →
          (iKey m).1.lockedTarget = none ∧
          (iKey m).1.channelLocked = false ∧
          (iKey m).1.channel = "" ∧
          (iKey m).2 = 1)) ∧
    (∀ m : Model, m.lockedTarget = none → iKey m = (m, 1)) := by
  constructor
  · intro m lt t0 pre post hl hsplit hpre ht0
    unfold iKey
    rw [hl]
    dsimp only
    constructor
    · rw [hsplit]
      exact setIgnoredFlag_append lt.ToggleIgnore lt.ToggleIgnore.Ignored
        pre t0 post hpre ht0
    · intro _
      exact ⟨rfl, rfl, rfl, rfl⟩
  · intro m hm
    unfold iKey
    rw [hm]

/-- Witness for claim C8 on a concrete locked two-target state. -/
theorem claim_C8_witness :
    (iKey exModelTwo).1.targets =
      [] ++ { exTargetB with Ignored := !exTargetB.Ignored } :: [exTargetC] ∧
    (exTargetB.Ignored = false →
      (iKey exModelTwo).1.lockedTarget = none ∧
      (iKey exModelTwo).1.channelLocked = false ∧
      (iKey exModelTwo).1.channel = "" ∧
      (iKey exModelTwo).2 = 1) :=
  claim_C8.1 exModelTwo exTargetB exTargetB [] [exTargetC]
    rfl (by decide) (by simp) (by decide)

/-- Claim C10: `ToggleIgnore` is an involution on the `Ignored` field
and a single application changes no other field of a `TargetItem`. -/
theorem claim_C10 (t : TargetItem) :
    (t.ToggleIgnore.ToggleIgnore).Ignored = t.Ignored ∧
    t.ToggleIgnore.Value = t.Value ∧
    t.ToggleIgnore.TType = t.TType ∧
    t.ToggleIgnore.OriginalValue = t.OriginalValue ∧
    t.ToggleIgnore.Search = t.Search ∧
    t.ToggleIgnore.ChannelLocked = t.ChannelLocked := by
  simp [TargetItem.ToggleIgnore]

end Rizzyscope
